import Mathlib

/-
A verification development for the LanguageMachine playback core
(languagemain.py): the learning-object store (zip containers with a
metadata.json entry and binary asset entries, updated by a
build-in-temp-then-rename protocol), the selection policies
(weighted_picker, SequentialPicker), and the playback engine's loop,
wait machinery and command flags.

Modelling conventions:
- a zip container is a list of (entry name, entry data) pairs; reading an
  entry by name resolves to the last entry with that name, as Python's
  zipfile name lookup does;
- the metadata entry holds a structured JSON value (json.dumps/json.loads
  are Python stdlib and are treated as a faithful bijection between the
  value and its bytes, which the claims never inspect);
- the filesystem is a map from paths to containers; os.replace is a single
  atomic step; update_trace lists every filesystem state the update
  protocol passes through, so crash/failure at any point is visible;
- Python floats are modelled as rationals, datetime.now().isoformat() as
  an opaque string parameter, and random draws as an explicit rational
  sample r in [0,1) fed to the inverse CDF that random.choices computes;
- the engine's wait loops are small-step machines over a program location
  and the elapsed time, stepped under the command flags currently set by
  the control surface; exceptions are Except values and an uncaught
  exception terminates the loop, as it kills the Python thread.
-/

set_option maxHeartbeats 1000000
set_option maxRecDepth 4000

namespace LM

/-- JSON values, as parsed from a container's metadata.json entry. -/
inductive Json where
  | null : Json
  | bool (b : Bool) : Json
  | num (n : Int) : Json
  | str (s : String) : Json
  | arr (elems : List Json) : Json
  | obj (fields : List (String × Json)) : Json

/-- The aggregate play statistics stored under the "stats" key. -/
structure Stats where
  times_played : Int
  times_correct : Int
  times_incorrect : Int
  last_played : Option String
deriving DecidableEq

/-- One learning object, mirroring LearningObjectV2.__init__: fields not
read by from_dict keep the constructor defaults (schema_version is always
CURRENT_SCHEMA_VERSION = 2, language defaults to "chinese",
delay_between_instruction_and_native to 6). file_path is the attribute the
GUI attaches after loading. -/
structure LearningObjectV2 where
  schema_version : Int := 2
  english : String
  pinyin : String
  native : String
  tags : List String
  delay_between_instruction_and_native : Int := 6
  flagged : Bool
  language : String := "chinese"
  stats : Stats
  file_path : String := ""
deriving DecidableEq

instance : Inhabited LearningObjectV2 :=
  ⟨{ english := "", pinyin := "", native := "", tags := [], flagged := false,
     stats := ⟨0, 0, 0, none⟩ }⟩

/-- Python dict lookup on a parsed JSON object (keys are unique after
json.loads). -/
def Json.getField (j : Json) (key : String) : Option Json :=
  match j with
  | .obj fields => (fields.find? (fun f => f.1 == key)).map (fun f => f.2)
  | _ => none

/-- data.get(key, default) for a string-valued field. -/
def jStrD (o : Option Json) (d : String) : String :=
  match o with
  | some (.str s) => s
  | _ => d

/-- data.get(key, default) for an integer-valued field. -/
def jIntD (o : Option Json) (d : Int) : Int :=
  match o with
  | some (.num n) => n
  | _ => d

/-- data.get(key, default) for a boolean-valued field. -/
def jBoolD (o : Option Json) (d : Bool) : Bool :=
  match o with
  | some (.bool b) => b
  | _ => d

/-- data.get(key, default) for a list-of-strings field. -/
def jStrListD (o : Option Json) (d : List String) : List String :=
  match o with
  | some (.arr xs) => xs.filterMap (fun x => match x with | .str s => some s | _ => none)
  | _ => d

/-- The nullable last_played timestamp. -/
def jLastPlayed (o : Option Json) : Option String :=
  match o with
  | some (.str s) => some s
  | _ => none

/-- Interpret the "stats" sub-dictionary; a missing dictionary yields the
default stats block from from_dict. -/
def jStatsD (o : Option Json) : Stats :=
  match o with
  | some j =>
    { times_played := jIntD (j.getField "times_played") 0
      times_correct := jIntD (j.getField "times_correct") 0
      times_incorrect := jIntD (j.getField "times_incorrect") 0
      last_played := jLastPlayed (j.getField "last_played") }
  | none => { times_played := 0, times_correct := 0, times_incorrect := 0, last_played := none }

/-- Serialize a stats block back to JSON (key order as in the source). -/
def statsToJson (s : Stats) : Json :=
  .obj [("times_played", .num s.times_played),
        ("times_correct", .num s.times_correct),
        ("times_incorrect", .num s.times_incorrect),
        ("last_played", match s.last_played with | none => .null | some t => .str t)]

/-- LearningObjectV2.to_dict: note that neither language nor
delay_between_instruction_and_native is written. -/
def LearningObjectV2.to_dict (lo : LearningObjectV2) : Json :=
  .obj [("schema_version", .num lo.schema_version),
        ("english", .str lo.english),
        ("pinyin", .str lo.pinyin),
        ("native", .str lo.native),
        ("tags", .arr (lo.tags.map (fun t => .str t))),
        ("stats", statsToJson lo.stats),
        ("flagged", .bool lo.flagged)]

/-- LearningObjectV2.from_dict: reads english, pinyin, native, tags,
flagged and stats with defaults; it does not read language,
schema_version or delay_between_instruction_and_native, so those take the
constructor defaults. -/
def LearningObjectV2.from_dict (data : Json) : LearningObjectV2 :=
  { english := jStrD (data.getField "english") ""
    pinyin := jStrD (data.getField "pinyin") ""
    native := jStrD (data.getField "native") ""
    tags := jStrListD (data.getField "tags") []
    flagged := jBoolD (data.getField "flagged") false
    stats := jStatsD (data.getField "stats") }

/-- The semantic value of a metadata record's english field (spec data
model: missing fields take the documented default). -/
def semEnglish (j : Json) : String := jStrD (j.getField "english") ""

/-- Semantic pinyin (answerText) field. -/
def semPinyin (j : Json) : String := jStrD (j.getField "pinyin") ""

/-- Semantic native field. -/
def semNative (j : Json) : String := jStrD (j.getField "native") ""

/-- Semantic tags field. -/
def semTags (j : Json) : List String := jStrListD (j.getField "tags") []

/-- Semantic flagged field. -/
def semFlagged (j : Json) : Bool := jBoolD (j.getField "flagged") false

/-- Semantic stats field. -/
def semStats (j : Json) : Stats := jStatsD (j.getField "stats")

/-- Semantic schema version field. -/
def semSchemaVersion (j : Json) : Int := jIntD (j.getField "schema_version") 2

/-- Semantic language field; the documented default is "chinese". -/
def semLanguage (j : Json) : String := jStrD (j.getField "language") "chinese"

/-- The data held by one zip entry: raw bytes for binary assets, a JSON
value for the metadata record. -/
inductive EntryData where
  | bytes (bs : List Nat) : EntryData
  | json (j : Json) : EntryData

/-- A zip container: the ordered list of its named entries. -/
abbrev Container := List (String × EntryData)

/-- The filesystem: a map from paths to containers. -/
abbrev FS := String → Option Container

/-- The exception classes the modelled code can raise. -/
inductive Err where
  | keyError : Err
  | indexError : Err
  | ioError : Err
deriving DecidableEq

/-- zipfile read-by-name: the last entry with the given name wins, none if
the name is absent (Python raises KeyError there). -/
def zipRead (c : Container) (name : String) : Option EntryData :=
  (c.reverse.find? (fun e => e.1 == name)).map (fun e => e.2)

/-- The temporary container path zip_path + ".temp". -/
def tempPath (zip_path : String) : String := zip_path ++ ".temp"

/-- Write a container at a path. -/
def fsSet (fs : FS) (p : String) (c : Container) : FS :=
  fun q => if q = p then some c else fs q

/-- Remove the file at a path. -/
def fsDel (fs : FS) (p : String) : FS :=
  fun q => if q = p then none else fs q

/-- The copy loop of update_learning_object_metadata: every entry of the
old container other than metadata.json is rewritten into the new one with
the data that reading its name from the old container yields (the read
always succeeds for a listed name; getD supplies the entry's own data as
an unreachable fallback). -/
def copyEntries (old : Container) : Container :=
  (old.filter (fun e => e.1 != "metadata.json")).map
    (fun e => (e.1, (zipRead old e.1).getD e.2))

/-- The full new container: copied entries plus the freshly serialized
metadata record. -/
def buildNewZip (old : Container) (lo : LearningObjectV2) : Container :=
  copyEntries old ++ [("metadata.json", EntryData.json lo.to_dict)]

/-- update_learning_object_metadata: open the old container (failure if
absent), build the new container at zip_path + ".temp", then os.replace
it over zip_path in one atomic step. -/
def update_learning_object_metadata (fs : FS) (zip_path : String) (lo : LearningObjectV2) :
    Except Err FS :=
  match fs zip_path with
  | none => .error .ioError
  | some old =>
    .ok (fsDel
          (fsSet (fsSet fs (tempPath zip_path) (buildNewZip old lo)) zip_path (buildNewZip old lo))
          (tempPath zip_path))

/-- Every filesystem state the update passes through, in order: before any
write, after the temporary container is fully built, and after the atomic
rename. A crash or failure at any point leaves one of the non-final
states on disk. -/
def update_trace (fs : FS) (zip_path : String) (lo : LearningObjectV2) : List FS :=
  match fs zip_path with
  | none => [fs]
  | some old =>
    [fs,
     fsSet fs (tempPath zip_path) (buildNewZip old lo),
     fsDel
       (fsSet (fsSet fs (tempPath zip_path) (buildNewZip old lo)) zip_path (buildNewZip old lo))
       (tempPath zip_path)]

/-- load_learning_object: read and parse the metadata.json entry. -/
def load_learning_object (fs : FS) (zip_path : String) : Except Err LearningObjectV2 :=
  match fs zip_path with
  | none => .error .ioError
  | some c =>
    match zipRead c "metadata.json" with
    | some (.json j) => .ok (LearningObjectV2.from_dict j)
    | some (.bytes _) => .error .ioError
    | none => .error .keyError

/-- extract_audio_from_zip: copy one named entry to a fresh file under
temp/ (the uuid prefix is abstracted away; only the success/failure and
the returned path's existence matter to the engine). KeyError if the
entry name is absent, an IO error if the container itself is missing. -/
def extract_audio_from_zip (fs : FS) (zip_path : String) (filename : String) :
    Except Err String :=
  match fs zip_path with
  | none => .error .ioError
  | some c =>
    match zipRead c filename with
    | none => .error .keyError
    | some _ => .ok ("temp/" ++ filename)

/-- Python str.strip(): drop leading and trailing whitespace. -/
def pyStrip (s : String) : String :=
  String.mk (((s.data.dropWhile Char.isWhitespace).reverse.dropWhile Char.isWhitespace).reverse)

/-- The per-record weight of weighted_picker. -/
def loWeight (lo : LearningObjectV2) : Rat :=
  ((lo.stats.times_incorrect : Rat) + 1) / ((lo.stats.times_played : Rat) + 1)

/-- The raw weight list. -/
def pickWeights (los : List LearningObjectV2) : List Rat :=
  los.map loWeight

/-- The normalized weight list (each weight divided by the total). -/
def normalizedWeights (los : List LearningObjectV2) : List Rat :=
  (pickWeights los).map (fun w => w / (pickWeights los).sum)

/-- The inverse CDF that random.choices computes from the cumulative
weights: index of the subinterval of [0, sum ws) that the sample r falls
into. -/
def categorical : List Rat → Rat → Nat
  | [], _ => 0
  | w :: ws, r => if r < w then 0 else categorical ws (r - w) + 1

/-- weighted_picker: weight each record by (times_incorrect + 1) /
(times_played + 1), normalize, and draw one record with the sample r. On
an empty collection random.choices raises IndexError reading the last
cumulative weight. -/
def weighted_picker (los : List LearningObjectV2) (r : Rat) : Except Err LearningObjectV2 :=
  match los with
  | [] => .error .indexError
  | _ :: _ => .ok (los.getD (categorical (normalizedWeights los) r) default)

/-- SequentialPicker: the captured collection and the round-robin cursor. -/
structure SequentialPicker where
  learning_objects : List LearningObjectV2
  index : Nat
deriving DecidableEq

/-- SequentialPicker.__call__(self, _): the argument is ignored; return
the element at the cursor and advance the cursor by one modulo the
captured collection's size. Indexing an out-of-range cursor raises
(IndexError), modelled as none. -/
def SequentialPicker.call (sp : SequentialPicker) (_ignored : List LearningObjectV2) :
    Option (LearningObjectV2 × SequentialPicker) :=
  if h : sp.index < sp.learning_objects.length then
    some (sp.learning_objects.get ⟨sp.index, h⟩,
          { learning_objects := sp.learning_objects,
            index := (sp.index + 1) % sp.learning_objects.length })
  else none

/-- The picker state after n calls (a failing call leaves the state
unchanged; it never fails on a nonempty collection). -/
def SequentialPicker.stateAfter (sp : SequentialPicker) : Nat → SequentialPicker
  | 0 => sp
  | n + 1 =>
    match (sp.stateAfter n).call [] with
    | some (_, sp') => sp'
    | none => sp.stateAfter n

/-- The record returned by call number n (counting from 0). -/
def SequentialPicker.outputAt (sp : SequentialPicker) (n : Nat) : Option LearningObjectV2 :=
  ((sp.stateAfter n).call []).map Prod.fst

/-- Settings values the engine reads (floats as rationals). -/
structure Settings where
  instruction_delay : Rat
  quiz_interval : Rat
  seconds_per_char : Rat
deriving DecidableEq

/-- Calls issued to the audio device. -/
inductive AudioCall where
  | load (path : String) : AudioCall
  | play : AudioCall
deriving DecidableEq

/-- The observable outcome of play_learning_object for one item. -/
structure PlayResult where
  phase1Audio : List AudioCall
  phase2Audio : List AudioCall
  hold1 : Rat
  hold2 : Rat
  completed : Bool
deriving DecidableEq

/-- The audio calls a phase issues: none when it has no asset, else a
load followed by a play. -/
def audioCalls (p : Option String) : List AudioCall :=
  match p with
  | none => []
  | some path => [.load path, .play]

/-- The body of play_learning_object after both extractions: decide the
phase order (chinese_first plays the native clip first, every other mode
plays the instruction clip first when present), compute the Hold-1 delay
(the configured instruction_delay in pinyin mode, else
max(len(native.strip()) * seconds_per_char, 2)), and Hold-2 is the
quiz_interval. intr is true when a skip/stop arrives mid-item, in which
case the item returns early before phase 2. -/
def play_lo_body (settings : Settings) (mode : String) (intr : Bool)
    (lo : LearningObjectV2) (instr_path : Option String) (native_path : String) : PlayResult :=
  let first_audio := if mode = "chinese_first" then some native_path else instr_path
  let second_audio := if mode = "chinese_first" then instr_path else some native_path
  let delay := if mode = "pinyin" then settings.instruction_delay
    else max (((pyStrip lo.native).length : Rat) * settings.seconds_per_char) 2
  { phase1Audio := audioCalls first_audio
    phase2Audio := if intr then [] else audioCalls second_audio
    hold1 := delay
    hold2 := settings.quiz_interval
    completed := !intr }

/-- play_learning_object: the instruction extraction is wrapped in
try/except KeyError (the clip is optional); the native extraction is not
wrapped, so any failure there propagates to the caller. -/
def play_learning_object (fs : FS) (settings : Settings) (mode : String) (intr : Bool)
    (lo : LearningObjectV2) : Except Err PlayResult :=
  match extract_audio_from_zip fs lo.file_path "instruction.mp3" with
  | .error .keyError =>
    (match extract_audio_from_zip fs lo.file_path "native.mp3" with
     | .error e => .error e
     | .ok native_path => .ok (play_lo_body settings mode intr lo none native_path))
  | .error e => .error e
  | .ok instr_path =>
    (match extract_audio_from_zip fs lo.file_path "native.mp3" with
     | .error e => .error e
     | .ok native_path => .ok (play_lo_body settings mode intr lo (some instr_path) native_path))

/-- record_play: increment times_played and stamp last_played with the
current time. -/
def record_play (lo : LearningObjectV2) (now : String) : LearningObjectV2 :=
  { lo with stats := { lo.stats with
      times_played := lo.stats.times_played + 1,
      last_played := some now } }

/-- The engine state the play loop threads through: the filesystem plus
the latched command flags. -/
structure EngineState where
  fs : FS
  skip_requested : Bool
  stopped : Bool
  paused : Bool

/-- One iteration of the play_loop body: pick the next record, mutate its
stats in memory, clear the pending skip flag, play the item (an uncaught
exception propagates), then persist the mutated record with the atomic
store update. -/
def play_iter (pick : List LearningObjectV2 → Except Err LearningObjectV2)
    (now : String) (settings : Settings) (mode : String) (intr : Bool)
    (st : EngineState) (los : List LearningObjectV2) : Except Err EngineState :=
  match pick los with
  | .error e => .error e
  | .ok lo =>
    let lo2 := record_play lo now
    let st1 : EngineState := { st with skip_requested := false }
    match play_learning_object st1.fs settings mode intr lo2 with
    | .error e => .error e
    | .ok _ =>
      match update_learning_object_metadata st1.fs lo2.file_path lo2 with
      | .error e => .error e
      | .ok fs2 => .ok { st1 with fs := fs2 }

/-- play_loop with fuel: while not stopped, run an iteration unless
paused; an exception from the body propagates out of the while and ends
the thread. -/
def play_loop_run (pick : List LearningObjectV2 → Except Err LearningObjectV2)
    (now : String) (settings : Settings) (mode : String) (intr : Bool) :
    Nat → EngineState → List LearningObjectV2 → Except Err EngineState
  | 0, st, _ => .ok st
  | fuel + 1, st, los =>
    if st.stopped then .ok st
    else if st.paused then play_loop_run pick now settings mode intr fuel st los
    else
      match play_iter pick now settings mode intr st los with
      | .error e => .error e
      | .ok st2 => play_loop_run pick now settings mode intr fuel st2 los

/-- Program locations of wait_with_progress: the loop-condition check,
the skip/stop poll, the pause busy-wait, and the working tail of one
iteration (unpause, sleep one step, bump elapsed, emit progress). The
phase poll loops around pygame.mixer.music.get_busy() share this shape. -/
inductive WaitLoc where
  | cond : WaitLoc
  | check : WaitLoc
  | pauseWait : WaitLoc
  | work : WaitLoc
deriving DecidableEq

/-- The latched command flags as the control surface has set them. -/
structure Cmds where
  paused : Bool
  stopped : Bool
  skip_requested : Bool
deriving DecidableEq

/-- One small step of wait_with_progress under the current flags. The
skip/stop poll returns False (interrupted); reaching the total returns
True; the pause busy-wait's guard tests only paused. The step is 0.05
seconds. -/
def waitStep (total : Rat) (f : Cmds) : WaitLoc × Rat → Sum (WaitLoc × Rat) Bool
  | (.cond, elapsed) => if elapsed < total then .inl (.check, elapsed) else .inr true
  | (.check, elapsed) =>
    if f.skip_requested || f.stopped then .inr false else .inl (.pauseWait, elapsed)
  | (.pauseWait, elapsed) =>
    if f.paused then .inl (.pauseWait, elapsed) else .inl (.work, elapsed)
  | (.work, elapsed) => .inl (.cond, elapsed + 1 / 20)

/-- Run the wait machine a bounded number of steps under constant flags;
some b when the wait returned b within the bound. -/
def waitRun (total : Rat) (f : Cmds) : Nat → WaitLoc × Rat → Option Bool
  | 0, _ => none
  | n + 1, s =>
    match waitStep total f s with
    | .inl s2 => waitRun total f n s2
    | .inr b => some b

/-- What launch_learning tracks of the appliance: the loaded collection,
whether the play-loop thread is alive, and the UI state. -/
structure AppState where
  learning_objects : List LearningObjectV2
  play_thread_alive : Bool
  ui_state : String

/-- launch_learning: if a session thread is already alive, skip the
launch; otherwise construct the engine and start the thread — with no
check that the collection is nonempty. -/
def launch_learning (app : AppState) (_mode : String) : AppState :=
  if app.play_thread_alive then app
  else { app with play_thread_alive := true, ui_state := "learning" }

/-- Shared concrete fixtures for witnesses and counterexamples. -/
def statsZero : Stats := ⟨0, 0, 0, none⟩

def loA : LearningObjectV2 :=
  { english := "hello", pinyin := "ni hao", native := "你好", tags := ["greet"],
    flagged := false, stats := statsZero, file_path := "a.xue" }

def loB : LearningObjectV2 :=
  { english := "thanks", pinyin := "xie xie", native := "谢谢", tags := [],
    flagged := true, stats := ⟨2, 1, 1, some "2026-01-01T00:00:00"⟩, file_path := "b.xue" }

def containerA : Container :=
  [("metadata.json", EntryData.json loA.to_dict),
   ("native.mp3", EntryData.bytes [1, 2, 3]),
   ("instruction.mp3", EntryData.bytes [4, 5])]

def fsA : FS := fun q => if q = "a.xue" then some containerA else none

def stA : EngineState :=
  { fs := fsA, skip_requested := false, stopped := false, paused := false }

def sW : Settings := { instruction_delay := 6, quiz_interval := 10, seconds_per_char := 1 }

/-- A well-typed metadata record whose language is "french" and whose
schema version is 1. -/
def jFr : Json :=
  .obj [("schema_version", .num 1),
        ("english", .str "hello"),
        ("pinyin", .str "bonjour"),
        ("native", .str "bonjour"),
        ("tags", .arr [.str "greet"]),
        ("stats", statsToJson statsZero),
        ("flagged", .bool false),
        ("language", .str "french")]

def containerFr : Container :=
  [("metadata.json", EntryData.json jFr),
   ("native.mp3", EntryData.bytes [7, 8, 9])]

def fsFr : FS := fun q => if q = "fr.xue" then some containerFr else none

/-- The metadata record found at fr.xue after loading it and saving the
loaded record back (Json.null in the unreachable failure branches). -/
def roundtripMetaFr : Json :=
  match update_learning_object_metadata fsFr "fr.xue"
          (LearningObjectV2.from_dict jFr) with
  | .ok g =>
    (match g "fr.xue" with
     | some nc =>
       (match zipRead nc "metadata.json" with
        | some (.json nj) => nj
        | _ => .null)
     | none => .null)
  | .error _ => .null

/-- A learning object whose container lacks the required native clip. -/
def loN : LearningObjectV2 :=
  { english := "x", pinyin := "x", native := "xx", tags := [], flagged := false,
    stats := statsZero, file_path := "n.xue" }

def containerNoNative : Container := [("metadata.json", EntryData.json loN.to_dict)]

def fsN : FS := fun q => if q = "n.xue" then some containerNoNative else none

def stN : EngineState :=
  { fs := fsN, skip_requested := false, stopped := false, paused := false }

/-- A learning object whose native text carries a trailing space. -/
def loSp : LearningObjectV2 :=
  { english := "a", pinyin := "a", native := "a ", tags := [], flagged := false,
    stats := statsZero, file_path := "sp.xue" }

def containerSp : Container :=
  [("metadata.json", EntryData.json loSp.to_dict), ("native.mp3", EntryData.bytes [0])]

def fsSp : FS := fun q => if q = "sp.xue" then some containerSp else none

def sSp : Settings := { instruction_delay := 6, quiz_interval := 10, seconds_per_char := 3 }

/-- A container with a native clip but no instruction clip. -/
def loNI : LearningObjectV2 :=
  { english := "y", pinyin := "y", native := "好", tags := [], flagged := false,
    stats := statsZero, file_path := "ni.xue" }

def containerNI : Container :=
  [("metadata.json", EntryData.json loNI.to_dict), ("native.mp3", EntryData.bytes [9])]

def fsNI : FS := fun q => if q = "ni.xue" then some containerNI else none

def appEmpty : AppState :=
  { learning_objects := [], play_thread_alive := false, ui_state := "main_menu" }

def stEmpty : EngineState :=
  { fs := fun _ => none, skip_requested := false, stopped := false, paused := false }

theorem tempPath_ne (p : String) : tempPath p ≠ p := by
  intro h
  have h1 := congrArg String.length h
  have h5 : (".temp" : String).length = 5 := rfl
  rw [tempPath, String.length_append, h5] at h1
  omega

theorem find?_key_eq (l : Container) (hnd : (l.map Prod.fst).Nodup)
    (e : String × EntryData) (he : e ∈ l) :
    l.find? (fun x => x.1 == e.1) = some e := by
  induction l with
  | nil => simp at he
  | cons a t ih =>
    rw [List.map_cons, List.nodup_cons] at hnd
    rcases List.mem_cons.mp he with rfl | ht
    · rw [List.find?_cons_of_pos _ (by simp)]
    · have hne : ((fun x => x.1 == e.1) a) = false := by
        simp only [beq_eq_false_iff_ne]
        intro hcontra
        exact hnd.1 (hcontra ▸ List.mem_map_of_mem Prod.fst ht)
      rw [List.find?_cons_of_neg _ (by simp [hne])]
      exact ih hnd.2 ht

theorem zipRead_of_nodup (c : Container) (hnd : (c.map Prod.fst).Nodup)
    (e : String × EntryData) (he : e ∈ c) : zipRead c e.1 = some e.2 := by
  have hnd2 : (c.reverse.map Prod.fst).Nodup := by
    rw [List.map_reverse]
    exact List.nodup_reverse.mpr hnd
  unfold zipRead
  rw [find?_key_eq c.reverse hnd2 e (List.mem_reverse.mpr he)]
  rfl

theorem copyEntries_eq_filter (old : Container) (hnd : (old.map Prod.fst).Nodup) :
    copyEntries old = old.filter (fun e => e.1 != "metadata.json") := by
  unfold copyEntries
  have h : ∀ e ∈ old.filter (fun e => e.1 != "metadata.json"),
      (e.1, (zipRead old e.1).getD e.2) = e := by
    intro e he
    rw [zipRead_of_nodup old hnd e (List.mem_of_mem_filter he)]
    rfl
  calc (old.filter (fun e => e.1 != "metadata.json")).map
          (fun e => (e.1, (zipRead old e.1).getD e.2))
      = (old.filter (fun e => e.1 != "metadata.json")).map id := List.map_congr_left h
    _ = _ := List.map_id _

theorem buildNewZip_assets (old : Container) (lo : LearningObjectV2)
    (hnd : (old.map Prod.fst).Nodup) :
    (buildNewZip old lo).filter (fun e => e.1 != "metadata.json")
      = old.filter (fun e => e.1 != "metadata.json") := by
  unfold buildNewZip
  rw [List.filter_append, copyEntries_eq_filter old hnd]
  simp [List.filter_filter]

theorem buildNewZip_metadata (old : Container) (lo : LearningObjectV2) :
    zipRead (buildNewZip old lo) "metadata.json" = some (EntryData.json lo.to_dict) := by
  unfold buildNewZip zipRead
  rw [List.reverse_append]
  simp

/-- C1: update_learning_object_metadata builds the complete new container
away from the original path — copying every entry other than
metadata.json byte-for-byte and replacing the metadata entry with the
serialized record — and installs it with one atomic rename: every
filesystem state of the update other than the final one (i.e. after a
failure or crash while building the temporary container or before the
rename) still holds the original container unchanged at the path, and the
final state holds exactly the new container at the path, with the
temporary file consumed and all other paths untouched. -/
theorem update_metadata_atomic (fs : FS) (p : String) (lo : LearningObjectV2)
    (old : Container) (hold : fs p = some old) (hnd : (old.map Prod.fst).Nodup) :
    (∀ g ∈ (update_trace fs p lo).dropLast, g p = some old) ∧
    ((buildNewZip old lo).filter (fun e => e.1 != "metadata.json")
       = old.filter (fun e => e.1 != "metadata.json")) ∧
    zipRead (buildNewZip old lo) "metadata.json" = some (EntryData.json lo.to_dict) ∧
    ∃ fs2, update_learning_object_metadata fs p lo = .ok fs2 ∧
      (update_trace fs p lo).getLast? = some fs2 ∧
      fs2 p = some (buildNewZip old lo) ∧
      fs2 (tempPath p) = none ∧
      (∀ q, q ≠ p → q ≠ tempPath p → fs2 q = fs q) := by
  have hpt : ¬ (p = tempPath p) := fun h => tempPath_ne p h.symm
  refine ⟨?_, buildNewZip_assets old lo hnd, buildNewZip_metadata old lo,
          fsDel (fsSet (fsSet fs (tempPath p) (buildNewZip old lo)) p (buildNewZip old lo))
            (tempPath p), ?_, ?_, ?_, ?_, ?_⟩
  · intro g hg
    have he : (update_trace fs p lo).dropLast
        = [fs, fsSet fs (tempPath p) (buildNewZip old lo)] := by
      unfold update_trace
      rw [hold]
      rfl
    rw [he] at hg
    simp only [List.mem_cons, List.not_mem_nil, or_false] at hg
    rcases hg with rfl | rfl
    · exact hold
    · simp [fsSet, hpt, hold]
  · simp [update_learning_object_metadata, hold]
  · simp [update_trace, hold]
  · simp [fsDel, fsSet, hpt]
  · simp [fsDel]
  · intro q hq1 hq2
    simp [fsDel, fsSet, hq1, hq2]

/-- Witness for C1: the protocol run on a concrete three-entry container. -/
theorem update_metadata_atomic_witness :
    (fsA "a.xue" = some containerA ∧ (containerA.map Prod.fst).Nodup) ∧
    zipRead (buildNewZip containerA loA) "metadata.json"
      = some (EntryData.json loA.to_dict) := by
  have h1 : fsA "a.xue" = some containerA := rfl
  have h2 : (containerA.map Prod.fst).Nodup := by decide
  exact ⟨⟨h1, h2⟩, (update_metadata_atomic fsA "a.xue" loA containerA h1 h2).2.2.1⟩

/-- C10: SequentialPicker.call ignores the collection argument passed at
call time — for every argument value the returned record and the cursor
arithmetic depend only on the list captured at construction, so calling
an already-constructed picker with a different or mutated collection has
no effect on what it returns. -/
theorem sequential_call_ignores_argument (sp : SequentialPicker)
    (a b : List LearningObjectV2) : sp.call a = sp.call b := rfl

theorem sequential_stateAfter_fresh (los : List LearningObjectV2) (h : 0 < los.length) :
    ∀ k : Nat, SequentialPicker.stateAfter ⟨los, 0⟩ k = ⟨los, k % los.length⟩ := by
  intro k
  induction k with
  | zero => simp [SequentialPicker.stateAfter, Nat.zero_mod]
  | succ n ih =>
    have hm : n % los.length < los.length := Nat.mod_lt n h
    simp only [SequentialPicker.stateAfter]
    rw [ih]
    simp only [SequentialPicker.call, hm, dif_pos]
    congr 1
    exact Nat.mod_add_mod n los.length 1

/-- C4: a freshly constructed SequentialPicker is a round-robin cursor:
after k calls the cursor sits at k mod N, call number k returns the
record at position k mod N (so the first N calls return each record
exactly once, in load order), and the output sequence has period N. -/
theorem sequential_picker_round_robin (los : List LearningObjectV2)
    (h : 0 < los.length) (k : Nat) :
    SequentialPicker.stateAfter ⟨los, 0⟩ k = ⟨los, k % los.length⟩ ∧
    SequentialPicker.outputAt ⟨los, 0⟩ k = some (los.getD (k % los.length) default) ∧
    SequentialPicker.outputAt ⟨los, 0⟩ (k + los.length)
      = SequentialPicker.outputAt ⟨los, 0⟩ k := by
  have hst := sequential_stateAfter_fresh los h
  have hout : ∀ m : Nat, SequentialPicker.outputAt ⟨los, 0⟩ m
      = some (los.getD (m % los.length) default) := by
    intro m
    have hm : m % los.length < los.length := Nat.mod_lt m h
    rw [SequentialPicker.outputAt, hst m]
    simp [SequentialPicker.call, hm, List.getD_eq_get?, List.get?_eq_get hm]
  exact ⟨hst k, hout k, by rw [hout, hout, Nat.add_mod_right]⟩

/-- Witness for C4 on a concrete two-element collection at call number 3. -/
theorem sequential_picker_round_robin_witness :
    0 < [loA, loB].length ∧
    SequentialPicker.stateAfter ⟨[loA, loB], 0⟩ 3 = ⟨[loA, loB], 3 % [loA, loB].length⟩ := by
  exact ⟨by decide, (sequential_picker_round_robin [loA, loB] (by decide) 3).1⟩

theorem jStatsD_statsToJson (s : Stats) : jStatsD (some (statsToJson s)) = s := by
  cases s with
  | mk tp tc ti lp => cases lp <;> rfl

theorem strList_roundtrip (l : List String) :
    ((l.map (fun t => Json.str t)).filterMap
      (fun x => match x with | .str s => some s | _ => none)) = l := by
  induction l with
  | nil => rfl
  | cons a t ih => simp [List.filterMap_cons, ih]

/-- C2 (amended): load followed immediately by saveMetadata with no field
changes leaves every embedded asset entry byte-identical and writes
metadata semantically equal to the original on english, pinyin, native,
tags, flagged and stats; but the schema version is rewritten as the
current version 2 (so it equals the original's only when the original is
already version 2), and the language field is not preserved: from_dict
never reads it and to_dict never writes it, so the rewritten metadata
reads back as the default language "chinese". -/
theorem roundtrip_semantics (fs : FS) (p : String) (c : Container) (j : Json)
    (hc : fs p = some c) (hm : zipRead c "metadata.json" = some (.json j))
    (hnd : (c.map Prod.fst).Nodup) :
    load_learning_object fs p = .ok (LearningObjectV2.from_dict j) ∧
    ∃ fs2, update_learning_object_metadata fs p (LearningObjectV2.from_dict j) = .ok fs2 ∧
      fs2 p = some (buildNewZip c (LearningObjectV2.from_dict j)) ∧
      ((buildNewZip c (LearningObjectV2.from_dict j)).filter (fun e => e.1 != "metadata.json")
        = c.filter (fun e => e.1 != "metadata.json")) ∧
      zipRead (buildNewZip c (LearningObjectV2.from_dict j)) "metadata.json"
        = some (EntryData.json (LearningObjectV2.from_dict j).to_dict) ∧
      semEnglish (LearningObjectV2.from_dict j).to_dict = semEnglish j ∧
      semPinyin (LearningObjectV2.from_dict j).to_dict = semPinyin j ∧
      semNative (LearningObjectV2.from_dict j).to_dict = semNative j ∧
      semTags (LearningObjectV2.from_dict j).to_dict = semTags j ∧
      semFlagged (LearningObjectV2.from_dict j).to_dict = semFlagged j ∧
      semStats (LearningObjectV2.from_dict j).to_dict = semStats j ∧
      semSchemaVersion (LearningObjectV2.from_dict j).to_dict = 2 ∧
      semLanguage (LearningObjectV2.from_dict j).to_dict = "chinese" := by
  have hpt : ¬ (p = tempPath p) := fun h => tempPath_ne p h.symm
  refine ⟨?_,
          fsDel (fsSet (fsSet fs (tempPath p) (buildNewZip c (LearningObjectV2.from_dict j)))
                  p (buildNewZip c (LearningObjectV2.from_dict j))) (tempPath p),
          ?_, ?_,
          buildNewZip_assets c (LearningObjectV2.from_dict j) hnd,
          buildNewZip_metadata c (LearningObjectV2.from_dict j),
          rfl, rfl, rfl,
          strList_roundtrip (LearningObjectV2.from_dict j).tags,
          rfl,
          jStatsD_statsToJson (LearningObjectV2.from_dict j).stats,
          rfl, rfl⟩
  · simp [load_learning_object, hc, hm]
  · simp [update_learning_object_metadata, hc]
  · simp [fsDel, fsSet, hpt]

/-- C2 counterexample: for the container at fr.xue, whose metadata has
language "french" and schema version 1, loading and immediately saving
the loaded record back writes metadata whose semantic language is the
default "chinese" and whose semantic schema version is 2 — not
semantically equal to the original on the language and schema-version
fields, as the claim requires. -/
theorem roundtrip_language_counterexample :
    semLanguage roundtripMetaFr = "chinese" ∧ semLanguage jFr = "french" ∧
    semSchemaVersion roundtripMetaFr = 2 ∧ semSchemaVersion jFr = 1 := by
  exact ⟨rfl, rfl, rfl, rfl⟩

/-- Witness for C2 at the same concrete container. -/
theorem roundtrip_semantics_witness :
    (fsFr "fr.xue" = some containerFr ∧
     zipRead containerFr "metadata.json" = some (.json jFr) ∧
     (containerFr.map Prod.fst).Nodup) ∧
    load_learning_object fsFr "fr.xue" = .ok (LearningObjectV2.from_dict jFr) := by
  have h1 : fsFr "fr.xue" = some containerFr := rfl
  have h2 : zipRead containerFr "metadata.json" = some (.json jFr) := rfl
  have h3 : (containerFr.map Prod.fst).Nodup := by decide
  exact ⟨⟨h1, h2, h3⟩, (roundtrip_semantics fsFr "fr.xue" containerFr jFr h1 h2 h3).1⟩

theorem sum_map_div (l : List Rat) (s : Rat) :
    (l.map (fun w => w / s)).sum = l.sum / s := by
  induction l with
  | nil => simp
  | cons a t ih => simp [ih, add_div]

theorem sum_take_succ_rat (l : List Rat) (i : Nat) (h : i < l.length) :
    (l.take (i + 1)).sum = (l.take i).sum + l.getD i 0 := by
  induction l generalizing i with
  | nil => simp at h
  | cons a t ih =>
    cases i with
    | zero => simp
    | succ n =>
      have hn : n < t.length := by simpa using h
      simp only [List.take_succ_cons, List.sum_cons, List.getD_cons_succ]
      rw [ih n hn]
      ring

theorem categorical_interval (ws : List Rat) :
    ∀ i : Nat, i < ws.length → (∀ w ∈ ws, 0 ≤ w) →
    ∀ r : Rat, (ws.take i).sum ≤ r → r < (ws.take (i + 1)).sum →
    categorical ws r = i := by
  induction ws with
  | nil =>
    intro i hi
    simp at hi
  | cons w t ih =>
    intro i hi hnn r hlo hhi
    cases i with
    | zero =>
      have hw : r < w := by simpa using hhi
      simp [categorical, hw]
    | succ n =>
      have h0 : 0 ≤ (t.take n).sum :=
        List.sum_nonneg (fun x hx => hnn x (List.mem_cons_of_mem _ (List.take_subset _ _ hx)))
      have hge : w + (t.take n).sum ≤ r := by
        simpa [List.take_succ_cons] using hlo
      have hw : ¬ r < w := by linarith
      have hn : n < t.length := by simpa using hi
      have hup : r < w + (t.take (n + 1)).sum := by
        simpa [List.take_succ_cons] using hhi
      have hres := ih n hn (fun x hx => hnn x (List.mem_cons_of_mem _ hx)) (r - w)
        (by linarith) (by linarith)
      simp [categorical, hw, hres]

theorem loWeight_pos (lo : LearningObjectV2)
    (h1 : 0 ≤ lo.stats.times_played) (h2 : 0 ≤ lo.stats.times_incorrect) :
    0 < loWeight lo := by
  unfold loWeight
  apply div_pos
  · have hcast : (0 : Rat) ≤ (lo.stats.times_incorrect : Rat) := by exact_mod_cast h2
    linarith
  · have hcast : (0 : Rat) ≤ (lo.stats.times_played : Rat) := by exact_mod_cast h1
    linarith

/-- C3: the weighted picker draws each record with probability
proportional to (timesIncorrect + 1) / (timesPlayed + 1): the normalized
weights sum to 1, and the preimage of index i under the inverse CDF that
random.choices computes is the subinterval of [0, 1) between the i-th and
(i+1)-st partial sums of the normalized weights, whose width is the
record's weight divided by the total weight; on a collection of size one
every sample in [0, 1) returns that one record. (Stats are nonnegative,
per the data-model invariant.) -/
theorem weighted_picker_distribution (los : List LearningObjectV2)
    (hne : los ≠ [])
    (hstats : ∀ lo ∈ los, 0 ≤ lo.stats.times_played ∧ 0 ≤ lo.stats.times_incorrect) :
    (normalizedWeights los).sum = 1 ∧
    (∀ i, i < los.length →
      ((normalizedWeights los).take (i + 1)).sum - ((normalizedWeights los).take i).sum
        = loWeight (los.getD i default) / (pickWeights los).sum) ∧
    (∀ i, i < los.length → ∀ r : Rat,
      ((normalizedWeights los).take i).sum ≤ r →
      r < ((normalizedWeights los).take (i + 1)).sum →
      weighted_picker los r = .ok (los.getD i default)) ∧
    (∀ lo, los = [lo] → ∀ r : Rat, 0 ≤ r → r < 1 →
      weighted_picker los r = .ok lo) := by
  have hwpos : ∀ w ∈ pickWeights los, 0 < w := by
    intro w hw
    rw [pickWeights, List.mem_map] at hw
    obtain ⟨lo, hlo, rfl⟩ := hw
    exact loWeight_pos lo (hstats lo hlo).1 (hstats lo hlo).2
  have hnil : pickWeights los ≠ [] := by
    simpa [pickWeights] using hne
  have hspos : 0 < (pickWeights los).sum := List.sum_pos _ hwpos hnil
  have hsum1 : (normalizedWeights los).sum = 1 := by
    rw [normalizedWeights, sum_map_div, div_self (ne_of_gt hspos)]
  have hlen : (normalizedWeights los).length = los.length := by
    simp [normalizedWeights, pickWeights]
  have hnn : ∀ w ∈ normalizedWeights los, 0 ≤ w := by
    intro w hw
    rw [normalizedWeights, List.mem_map] at hw
    obtain ⟨v, hv, rfl⟩ := hw
    exact le_of_lt (div_pos (hwpos v hv) hspos)
  have hgetD : ∀ i, i < los.length →
      (normalizedWeights los).getD i 0
        = loWeight (los.getD i default) / (pickWeights los).sum := by
    intro i hi
    obtain ⟨lo, hlo⟩ : ∃ x, los[i]? = some x := ⟨_, List.getElem?_eq_getElem hi⟩
    simp [normalizedWeights, pickWeights, List.getD_eq_getElem?_getD, List.getElem?_map, hlo]
  have hinterval : ∀ i, i < los.length →
      ((normalizedWeights los).take (i + 1)).sum - ((normalizedWeights los).take i).sum
        = loWeight (los.getD i default) / (pickWeights los).sum := by
    intro i hi
    rw [sum_take_succ_rat _ i (by rwa [hlen]), hgetD i hi]
    ring
  have hpick : ∀ i, i < los.length → ∀ r : Rat,
      ((normalizedWeights los).take i).sum ≤ r →
      r < ((normalizedWeights los).take (i + 1)).sum →
      weighted_picker los r = .ok (los.getD i default) := by
    intro i hi r hlo2 hhi2
    have hcat : categorical (normalizedWeights los) r = i :=
      categorical_interval (normalizedWeights los) i (by rwa [hlen]) hnn r hlo2 hhi2
    cases los with
    | nil => exact absurd rfl hne
    | cons a t => simp [weighted_picker, hcat]
  refine ⟨hsum1, hinterval, hpick, ?_⟩
  intro lo hlos r h0 h1r
  subst hlos
  have htake : (normalizedWeights [lo]).take 1 = normalizedWeights [lo] :=
    List.take_of_length_le (by rw [hlen]; simp)
  exact hpick 0 (by simp) r (by simpa using h0) (by rw [htake, hsum1]; exact h1r)

/-- Witness for C3 on a concrete two-element collection. -/
theorem weighted_picker_distribution_witness :
    ([loA, loB] ≠ [] ∧
     ∀ lo ∈ [loA, loB], 0 ≤ lo.stats.times_played ∧ 0 ≤ lo.stats.times_incorrect) ∧
    (normalizedWeights [loA, loB]).sum = 1 := by
  have h1 : [loA, loB] ≠ [] := by simp
  have h2 : ∀ lo ∈ [loA, loB], 0 ≤ lo.stats.times_played ∧ 0 ≤ lo.stats.times_incorrect := by
    decide
  exact ⟨⟨h1, h2⟩, (weighted_picker_distribution [loA, loB] h1 h2).1⟩

/-- C6 counterexample: with pause and stop both pending, the pause
busy-wait suspension point of wait_with_progress steps to itself — the
pending stop is not observed and the wait does not end within 60 polls —
whereas the claim requires a pending stop to be observed and to end the
wait without a prior resume. -/
theorem stop_ignored_while_paused_counterexample :
    waitStep 1 ⟨true, true, false⟩ (.pauseWait, 0) = .inl (.pauseWait, 0) ∧
    waitRun 1 ⟨true, true, false⟩ 60 (.pauseWait, 0) = none := by
  exact ⟨rfl, rfl⟩

/-- C6 (amended): at the skip/stop poll at the top of each wait iteration
a pending stop ends the wait (returning the interrupted result)
regardless of pause and skip also being pending; but inside the pause
busy-wait the guard tests only the paused flag, so the machine loops
there and a pending stop is not observed; once a resume clears paused,
the pending stop ends the wait at the next top-of-iteration poll. -/
theorem stop_observation (total elapsed : Rat) (f : Cmds) :
    (f.stopped = true → waitStep total f (.check, elapsed) = .inr false) ∧
    (f.paused = true → waitStep total f (.pauseWait, elapsed) = .inl (.pauseWait, elapsed)) ∧
    (f.paused = false → f.stopped = true → elapsed + 1 / 20 < total →
      waitRun total f 4 (.pauseWait, elapsed) = some false) := by
  refine ⟨?_, ?_, ?_⟩
  · intro hs
    simp [waitStep, hs]
  · intro hp
    simp [waitStep, hp]
  · intro hp hs hlt
    have hlt2 : elapsed + (20 : Rat)⁻¹ < total := by rwa [one_div] at hlt
    simp [waitRun, waitStep, hp, hs, hlt2]

/-- Witness for C6 at concrete flags and times. -/
theorem stop_observation_witness :
    ((⟨true, true, false⟩ : Cmds).stopped = true ∧
     waitStep 1 ⟨true, true, false⟩ (.check, 0) = .inr false) ∧
    ((⟨false, true, false⟩ : Cmds).paused = false ∧ (0 : Rat) + 1 / 20 < 1 ∧
     waitRun 1 ⟨false, true, false⟩ 4 (.pauseWait, 0) = some false) := by
  refine ⟨⟨rfl, (stop_observation 1 0 ⟨true, true, false⟩).1 rfl⟩,
          ⟨rfl, by norm_num, (stop_observation 1 0 ⟨false, true, false⟩).2.2 rfl rfl (by norm_num)⟩⟩

theorem extract_ok (fs : FS) (p n : String) (c : Container) (hc : fs p = some c)
    (hn : (zipRead c n).isSome = true) :
    extract_audio_from_zip fs p n = .ok ("temp/" ++ n) := by
  obtain ⟨d, hd⟩ := Option.isSome_iff_exists.mp hn
  simp [extract_audio_from_zip, hc, hd]

theorem extract_keyError (fs : FS) (p n : String) (c : Container) (hc : fs p = some c)
    (hn : zipRead c n = none) :
    extract_audio_from_zip fs p n = .error .keyError := by
  simp [extract_audio_from_zip, hc, hn]

theorem play_lo_ok (fs : FS) (settings : Settings) (mode : String) (intr : Bool)
    (lo : LearningObjectV2) (c : Container) (hc : fs lo.file_path = some c)
    (hn : (zipRead c "native.mp3").isSome = true) :
    play_learning_object fs settings mode intr lo
      = .ok (play_lo_body settings mode intr lo
          ((zipRead c "instruction.mp3").map (fun _ => "temp/" ++ "instruction.mp3"))
          ("temp/" ++ "native.mp3")) := by
  cases hi : zipRead c "instruction.mp3" with
  | none =>
    simp [play_learning_object, extract_keyError fs _ _ c hc hi,
          extract_ok fs _ _ c hc hn]
  | some d =>
    simp [play_learning_object, extract_ok fs _ "instruction.mp3" c hc (by simp [hi]),
          extract_ok fs _ _ c hc hn]

/-- C8 (amended): when the container holds the required native clip, the
Hold-1 duration in every engine mode other than "pinyin" equals
max(2, secondsPerChar x length(strip(nativeText))) — the length of the
whitespace-stripped native text, not of the raw native text — with
secondsPerChar read from Settings at that point; in "pinyin" mode it
equals the configured instruction-delay seconds; and in "normal" mode
with no instruction asset, phase 1 issues zero audio calls before the
hold. -/
theorem hold_one_duration (fs : FS) (settings : Settings) (mode : String) (intr : Bool)
    (lo : LearningObjectV2) (c : Container) (hc : fs lo.file_path = some c)
    (hn : (zipRead c "native.mp3").isSome = true) :
    (mode ≠ "pinyin" →
      (play_learning_object fs settings mode intr lo).map PlayResult.hold1
        = .ok (max 2 (settings.seconds_per_char * ((pyStrip lo.native).length : Rat)))) ∧
    (mode = "pinyin" →
      (play_learning_object fs settings mode intr lo).map PlayResult.hold1
        = .ok settings.instruction_delay) ∧
    (mode = "normal" → zipRead c "instruction.mp3" = none →
      (play_learning_object fs settings mode intr lo).map PlayResult.phase1Audio
        = .ok []) := by
  rw [play_lo_ok fs settings mode intr lo c hc hn]
  refine ⟨?_, ?_, ?_⟩
  · intro hm
    simp [play_lo_body, hm, Except.map]
    rw [max_comm, mul_comm]
  · intro hm
    simp [play_lo_body, hm, Except.map]
  · intro hm hi
    subst hm
    simp [play_lo_body, hi, audioCalls, Except.map]

/-- Witness for C8 at a concrete container with no instruction asset. -/
theorem hold_one_duration_witness :
    (fsNI loNI.file_path = some containerNI ∧
     (zipRead containerNI "native.mp3").isSome = true ∧
     zipRead containerNI "instruction.mp3" = none) ∧
    (play_learning_object fsNI sW "normal" false loNI).map PlayResult.phase1Audio
      = .ok [] := by
  have h1 : fsNI loNI.file_path = some containerNI := rfl
  have h2 : (zipRead containerNI "native.mp3").isSome = true := rfl
  have h3 : zipRead containerNI "instruction.mp3" = none := rfl
  exact ⟨⟨h1, h2, h3⟩,
    (hold_one_duration fsNI sW "normal" false loNI containerNI h1 h2).2.2 rfl h3⟩

/-- C8 counterexample: for the item at sp.xue the native text is "a "
(one letter plus a trailing space) and secondsPerChar is 3; the engine
computes Hold-1 from the stripped length, giving 3, while the claimed
formula max(2, secondsPerChar x length(nativeText)) gives 6. -/
theorem hold_one_strip_counterexample :
    (play_learning_object fsSp sSp "normal" false loSp).map PlayResult.hold1 = .ok 3 ∧
    max 2 (sSp.seconds_per_char * (loSp.native.length : Rat)) = 6 ∧
    (3 : Rat) ≠ 6 := by
  have hl1 : (pyStrip loSp.native).length = 1 := rfl
  have hl2 : (loSp.native).length = 2 := rfl
  refine ⟨?_, ?_, by norm_num⟩
  · have hmp : ("normal" : String) ≠ "pinyin" := by decide
    rw [play_lo_ok fsSp sSp "normal" false loSp containerSp rfl rfl]
    norm_num [play_lo_body, Except.map, hl1, sSp, hmp]
  · rw [hl2]
    norm_num [sSp]

/-- C5 (amended): only the optional instruction clip's absence is handled
by the engine (the KeyError is caught, the item simply has no phase-1
audio, and the iteration proceeds); an extraction failure for the
required native clip raises KeyError out of play_learning_object
unhandled, and play_loop has no handler either, so the error terminates
the background unit of work without any stop command having been issued —
the iteration is not merely abandoned and the loop does not proceed to
the next item. -/
theorem native_extraction_failure_fatal
    (pick : List LearningObjectV2 → Except Err LearningObjectV2)
    (now : String) (settings : Settings) (mode : String) (intr : Bool) (fuel : Nat)
    (st : EngineState) (los : List LearningObjectV2) (lo : LearningObjectV2) (c : Container)
    (hstop : st.stopped = false) (hpause : st.paused = false)
    (hpick : pick los = .ok lo)
    (hc : st.fs lo.file_path = some c) :
    (zipRead c "native.mp3" = none →
      play_learning_object st.fs settings mode intr (record_play lo now)
        = .error .keyError ∧
      play_loop_run pick now settings mode intr (fuel + 1) st los = .error .keyError) ∧
    ((zipRead c "native.mp3").isSome = true →
      ∃ res, play_learning_object st.fs settings mode intr (record_play lo now)
        = .ok res) := by
  have hc2 : st.fs (record_play lo now).file_path = some c := hc
  constructor
  · intro hn
    have hplay : play_learning_object st.fs settings mode intr (record_play lo now)
        = .error .keyError := by
      cases hi : zipRead c "instruction.mp3" with
      | none =>
        simp [play_learning_object, extract_keyError st.fs _ _ c hc2 hi,
              extract_keyError st.fs _ _ c hc2 hn]
      | some d =>
        simp [play_learning_object,
              extract_ok st.fs _ "instruction.mp3" c hc2 (by simp [hi]),
              extract_keyError st.fs _ _ c hc2 hn]
    refine ⟨hplay, ?_⟩
    simp [play_loop_run, hstop, hpause, play_iter, hpick, hplay]
  · intro hn
    exact ⟨_, play_lo_ok st.fs settings mode intr (record_play lo now) c hc2 hn⟩

theorem record_play_file_path (lo : LearningObjectV2) (now : String) :
    (record_play lo now).file_path = lo.file_path := rfl

theorem weighted_picker_singleton_zero (lo : LearningObjectV2)
    (h1 : lo.stats.times_played = 0) (h2 : lo.stats.times_incorrect = 0) :
    weighted_picker [lo] 0 = .ok lo := by
  have hw : loWeight lo = 1 := by
    simp [loWeight, h1, h2]
  simp [weighted_picker, normalizedWeights, pickWeights, hw, categorical, zero_lt_one]

/-- C5 counterexample: the item at n.xue lacks native.mp3; running the
play loop with stop never requested terminates the background unit of
work with an uncaught KeyError instead of abandoning the iteration and
proceeding to the next item. -/
theorem native_missing_kills_loop_counterexample :
    stN.stopped = false ∧
    play_loop_run (fun l => weighted_picker l 0) "t" sW "normal" false 3 stN [loN]
      = .error .keyError := by
  refine ⟨rfl, ?_⟩
  have hpick : weighted_picker [loN] (0 : Rat) = .ok loN :=
    weighted_picker_singleton_zero loN rfl rfl
  have hc2 : fsN loN.file_path = some containerNoNative := rfl
  have hi : zipRead containerNoNative "instruction.mp3" = none := rfl
  have hn : zipRead containerNoNative "native.mp3" = none := rfl
  have hplay : play_learning_object fsN sW "normal" false (record_play loN "t")
      = .error .keyError := by
    simp [play_learning_object, record_play_file_path,
          extract_keyError fsN loN.file_path "instruction.mp3" containerNoNative hc2 hi,
          extract_keyError fsN loN.file_path "native.mp3" containerNoNative hc2 hn]
  simp [play_loop_run, play_iter, hpick, hplay, stN]

/-- Witness for C5 at the concrete failing container. -/
theorem native_extraction_failure_witness :
    (stN.stopped = false ∧ stN.paused = false ∧
     weighted_picker [loN] (0 : Rat) = .ok loN ∧
     stN.fs loN.file_path = some containerNoNative ∧
     zipRead containerNoNative "native.mp3" = none) ∧
    play_learning_object stN.fs sW "normal" false (record_play loN "t")
      = .error .keyError := by
  have h1 : weighted_picker [loN] (0 : Rat) = .ok loN :=
    weighted_picker_singleton_zero loN rfl rfl
  have h2 : stN.fs loN.file_path = some containerNoNative := rfl
  have h3 : zipRead containerNoNative "native.mp3" = none := rfl
  exact ⟨⟨rfl, rfl, h1, h2, h3⟩,
    ((native_extraction_failure_fatal (fun l => weighted_picker l 0) "t" sW "normal" false 2
        stN [loN] loN containerNoNative rfl rfl h1 h2).1 h3).1⟩

/-- C7: each play-loop iteration clears the pending skip flag after the
pick and stat mutation and before playing — so a skip pending from the
previous item has no effect on the iteration, and whether a skip cuts the
current item short has no effect on what is persisted — and then writes
the pick-time stat mutation (timesPlayed incremented by one, lastPlayed
set to the current time) through the store's atomic update at the end of
the iteration, finishing with the skip flag cleared. -/
theorem writeback_even_when_skipped
    (pick : List LearningObjectV2 → Except Err LearningObjectV2)
    (now : String) (settings : Settings) (mode : String) (intr : Bool)
    (st : EngineState) (los : List LearningObjectV2) (lo : LearningObjectV2) (c : Container)
    (hpick : pick los = .ok lo)
    (hc : st.fs lo.file_path = some c)
    (hn : (zipRead c "native.mp3").isSome = true) :
    (play_iter pick now settings mode intr { st with skip_requested := true } los
      = play_iter pick now settings mode intr { st with skip_requested := false } los) ∧
    (play_iter pick now settings mode true st los
      = play_iter pick now settings mode false st los) ∧
    ∃ fs2, play_iter pick now settings mode intr st los
        = .ok { fs := fs2, skip_requested := false,
                stopped := st.stopped, paused := st.paused } ∧
      fs2 lo.file_path = some (buildNewZip c (record_play lo now)) ∧
      zipRead (buildNewZip c (record_play lo now)) "metadata.json"
        = some (EntryData.json (record_play lo now).to_dict) ∧
      (record_play lo now).stats.times_played = lo.stats.times_played + 1 ∧
      (record_play lo now).stats.last_played = some now := by
  have hc2 : st.fs (record_play lo now).file_path = some c := hc
  have hplay : ∀ b : Bool, play_learning_object st.fs settings mode b (record_play lo now)
      = .ok (play_lo_body settings mode b (record_play lo now)
          ((zipRead c "instruction.mp3").map (fun _ => "temp/" ++ "instruction.mp3"))
          ("temp/" ++ "native.mp3")) :=
    fun b => play_lo_ok st.fs settings mode b (record_play lo now) c hc2 hn
  have hpt : ¬ (lo.file_path = tempPath lo.file_path) := fun h => tempPath_ne _ h.symm
  refine ⟨rfl, ?_, ?_⟩
  · simp only [play_iter, hpick]
    rw [hplay true, hplay false]
  · refine ⟨fsDel (fsSet (fsSet st.fs (tempPath lo.file_path)
        (buildNewZip c (record_play lo now))) lo.file_path
        (buildNewZip c (record_play lo now))) (tempPath lo.file_path), ?_, ?_,
      buildNewZip_metadata c (record_play lo now), rfl, rfl⟩
    · simp only [play_iter, hpick]
      rw [hplay intr]
      simp [record_play_file_path, update_learning_object_metadata, hc]
    · simp [fsDel, fsSet, hpt]

/-- Witness for C7 with the concrete container at a.xue. -/
theorem writeback_even_when_skipped_witness :
    (weighted_picker [loA] (0 : Rat) = .ok loA ∧
     stA.fs loA.file_path = some containerA ∧
     (zipRead containerA "native.mp3").isSome = true) ∧
    play_iter (fun l => weighted_picker l 0) "t" sW "normal" false
        { stA with skip_requested := true } [loA]
      = play_iter (fun l => weighted_picker l 0) "t" sW "normal" false
        { stA with skip_requested := false } [loA] := by
  have h1 : weighted_picker [loA] (0 : Rat) = .ok loA :=
    weighted_picker_singleton_zero loA rfl rfl
  have h2 : stA.fs loA.file_path = some containerA := rfl
  have h3 : (zipRead containerA "native.mp3").isSome = true := rfl
  exact ⟨⟨h1, h2, h3⟩,
    (writeback_even_when_skipped (fun l => weighted_picker l 0) "t" sW "normal" false
      stA [loA] loA containerA h1 h2 h3).1⟩

/-- C9 (amended): the weighted picker on the empty Collection fails with
the index error random.choices raises reading the last cumulative weight
(there is no dedicated EmptyCollectionError in the code); and the
condition is not surfaced before the background unit of work is spawned:
launch_learning performs no emptiness check and spawns the play-loop
thread unconditionally, so the failure is raised inside the already
running background unit of work, terminating it. -/
theorem empty_collection_error (r : Rat) (app : AppState) (mode now mode2 : String)
    (settings : Settings) (intr : Bool) (fuel : Nat) (st : EngineState)
    (halive : app.play_thread_alive = false)
    (hstop : st.stopped = false) (hpause : st.paused = false) :
    weighted_picker [] r = .error .indexError ∧
    (launch_learning app mode).play_thread_alive = true ∧
    (launch_learning app mode).ui_state = "learning" ∧
    play_loop_run (fun l => weighted_picker l r) now settings mode2 intr (fuel + 1) st []
      = .error .indexError := by
  refine ⟨rfl, ?_, ?_, ?_⟩
  · simp [launch_learning, halive]
  · simp [launch_learning, halive]
  · simp [play_loop_run, hstop, hpause, play_iter, weighted_picker]

/-- C9 counterexample: with the empty collection and the weighted picker,
launch_learning still spawns the background unit of work (it has no
emptiness check), and the failure — an index error, not a dedicated
EmptyCollectionError — is raised inside that unit of work, refuting the
requirement that the condition be surfaced before any background unit of
work is spawned. -/
theorem empty_collection_after_spawn_counterexample :
    appEmpty.learning_objects = [] ∧
    (launch_learning appEmpty "normal").play_thread_alive = true ∧
    play_loop_run (fun l => weighted_picker l 0) "t" sW "normal" false 1 stEmpty []
      = .error .indexError := by
  exact ⟨rfl, rfl, rfl⟩

/-- Witness for C9 at concrete inputs. -/
theorem empty_collection_error_witness :
    (appEmpty.play_thread_alive = false ∧ stEmpty.stopped = false ∧
     stEmpty.paused = false) ∧
    weighted_picker [] (0 : Rat) = .error .indexError := by
  exact ⟨⟨rfl, rfl, rfl⟩,
    (empty_collection_error 0 appEmpty "normal" "t" "normal" sW false 0 stEmpty
      rfl rfl rfl).1⟩

end LM
